import Mathlib

/-!
Verification of the Sobol sensitivity-estimator core described by the
repository specification. The repository itself ships only a notebook that
delegates sampling, estimation and surrogate fitting to an external library,
so the Design Generator, Index Estimator and collaborator contracts below are
modelled from the specification text; the printed relative-error computation
is embedded directly from the notebook source.

All real arithmetic is embedded over the rationals so that every definition
is executable and every concrete instance can be checked by evaluation.
-/

namespace Sobol

/-- Modelled from the spec: the construction-time error taxonomy of the
Design Generator (`InvalidDimension` for malformed N or d,
`SamplerContractViolation` for a wrongly shaped sampler result). The code
implementing this taxonomy is not in the repository sources. -/
inductive EstError where
  | InvalidDimension : String → EstError
  | SamplerContractViolation : String → EstError
deriving Repr, DecidableEq

/-- A row of an input sample: one d-dimensional point. -/
abbrev Row := List ℚ

/-- An input sample or base matrix: an ordered sequence of rows. -/
abbrev Mat := List Row

/-- A batched sampler: call index (0 for A, 1 for B), base size N, dimension
d, returning an N-by-d matrix of draws. Modelled from the spec: the sampler
collaborator with its batched draw form is not in the repository sources. -/
abbrev Sampler := Nat → Nat → Nat → Mat

/-- Shape check for a matrix: exactly N rows, each of length d. -/
def wellShapedB (M : Mat) (N d : Nat) : Bool :=
  M.length == N && M.all (fun r => r.length == d)

/-- Matrix A with column i replaced by column i of B, built row by row. -/
def crossMatrix (A B : Mat) (i : Nat) : Mat :=
  List.zipWith (fun rA rB => rA.set i (rB.getD i 0)) A B

/-- Modelled from the spec: the Design Generator. Draws the two base
matrices A and B from the sampler, validates N, d and the sampler shapes,
and concatenates A, B and the cross matrices A_B^0 .. A_B^(d-1) in that
fixed order. The code implementing it is not in the repository sources. -/
def generate (sampler : Sampler) (N d : Nat) : Except EstError Mat :=
  if N < 1 ∨ d < 1 then
    .error (.InvalidDimension "base size N and input dimension d must both be at least 1")
  else
    let A := sampler 0 N d
    let B := sampler 1 N d
    if wellShapedB A N d && wellShapedB B N d then
      .ok (A ++ B ++ ((List.range d).map (fun i => crossMatrix A B i)).flatten)
    else
      .error (.SamplerContractViolation "sampler returned a matrix that is not N by d")

/-- A deterministic concrete sampler used for instance checks. -/
def sampler0 : Sampler :=
  fun k N d => (List.range N).map (fun r => (List.range d).map (fun c => ((k + r + c : Nat) : ℚ)))

lemma mem_of_mem_zipWith {α β γ : Type} {f : α → β → γ} :
    ∀ {l₁ : List α} {l₂ : List β} {c : γ}, c ∈ List.zipWith f l₁ l₂ →
      ∃ a ∈ l₁, ∃ b ∈ l₂, c = f a b := by
  intro l₁
  induction l₁ with
  | nil => intro l₂ c h; simp [List.zipWith] at h
  | cons a as ih =>
    intro l₂ c h
    cases l₂ with
    | nil => simp [List.zipWith] at h
    | cons b bs =>
      simp only [List.zipWith, List.mem_cons] at h
      rcases h with h | h
      · exact ⟨a, by simp, b, by simp, h⟩
      · obtain ⟨a1, ha, b1, hb, hc⟩ := ih h
        exact ⟨a1, by simp [ha], b1, by simp [hb], hc⟩

lemma crossMatrix_length (A B : Mat) (i : Nat) :
    (crossMatrix A B i).length = min A.length B.length := by
  simp [crossMatrix]

lemma crossMatrix_row_length {A B : Mat} {d : ℕ} (i : Nat)
    (hA : ∀ r ∈ A, r.length = d) :
    ∀ r ∈ crossMatrix A B i, r.length = d := by
  intro r hr
  obtain ⟨a, ha, b, _, hc⟩ := mem_of_mem_zipWith hr
  subst hc
  simp [List.length_set, hA a ha]

lemma wellShapedB_iff {M : Mat} {N d : Nat} :
    wellShapedB M N d = true ↔ M.length = N ∧ ∀ r ∈ M, r.length = d := by
  simp [wellShapedB, List.all_eq_true]

/-- C1: for every N at least 1, d at least 1 and a valid sampler, generate
returns an InputSample with exactly N times (d+2) rows, each row of
dimensionality d, concatenated in the fixed order A (N rows), B (N rows),
then the cross matrices A_B for columns 0 .. d-1 (N rows each). -/
theorem generate_layout (s : Sampler) (N d : Nat) (hN : 1 ≤ N) (hd : 1 ≤ d)
    (hA : wellShapedB (s 0 N d) N d = true) (hB : wellShapedB (s 1 N d) N d = true) :
    generate s N d =
      .ok (s 0 N d ++ s 1 N d ++
        ((List.range d).map (fun i => crossMatrix (s 0 N d) (s 1 N d) i)).flatten)
    ∧ (s 0 N d ++ s 1 N d ++
        ((List.range d).map (fun i => crossMatrix (s 0 N d) (s 1 N d) i)).flatten).length
        = N * (d + 2)
    ∧ ∀ r ∈ s 0 N d ++ s 1 N d ++
        ((List.range d).map (fun i => crossMatrix (s 0 N d) (s 1 N d) i)).flatten,
        r.length = d := by
  obtain ⟨hAlen, hArow⟩ := wellShapedB_iff.mp hA
  obtain ⟨hBlen, hBrow⟩ := wellShapedB_iff.mp hB
  refine ⟨?_, ?_, ?_⟩
  · simp only [generate]
    rw [if_neg (by omega)]
    rw [hA, hB]
    simp
  · have hcl : ∀ i, (crossMatrix (s 0 N d) (s 1 N d) i).length = N := by
      intro i
      simp [crossMatrix_length, hAlen, hBlen]
    simp only [List.length_append, List.length_flatten, List.map_map, Function.comp_def]
    have hmap : ((List.range d).map fun i => (crossMatrix (s 0 N d) (s 1 N d) i).length)
        = List.replicate d N := by
      rw [List.eq_replicate_iff]
      refine ⟨by simp, ?_⟩
      intro b hb
      obtain ⟨i, _, hib⟩ := List.mem_map.mp hb
      rw [← hib, hcl]
    rw [hmap, List.sum_replicate, smul_eq_mul, hAlen, hBlen]
    ring
  · intro r hr
    rcases List.mem_append.mp hr with hr' | hfl
    · rcases List.mem_append.mp hr' with hrA | hrB
      · exact hArow r hrA
      · exact hBrow r hrB
    · obtain ⟨l, hl, hrl⟩ := List.mem_flatten.mp hfl
      obtain ⟨i, _, hil⟩ := List.mem_map.mp hl
      rw [← hil] at hrl
      exact crossMatrix_row_length i hArow r hrl

/-- Instance check for generate_layout at N = 2, d = 2 with a concrete sampler. -/
theorem generate_layout_witness :
    generate sampler0 2 2 =
      .ok (sampler0 0 2 2 ++ sampler0 1 2 2 ++
        ((List.range 2).map (fun i => crossMatrix (sampler0 0 2 2) (sampler0 1 2 2) i)).flatten)
    ∧ (sampler0 0 2 2 ++ sampler0 1 2 2 ++
        ((List.range 2).map (fun i => crossMatrix (sampler0 0 2 2) (sampler0 1 2 2) i)).flatten).length
        = 2 * (2 + 2)
    ∧ ∀ r ∈ sampler0 0 2 2 ++ sampler0 1 2 2 ++
        ((List.range 2).map (fun i => crossMatrix (sampler0 0 2 2) (sampler0 1 2 2) i)).flatten,
        r.length = 2 :=
  generate_layout sampler0 2 2 (by decide) (by decide) (by decide) (by decide)

/-- Arithmetic mean of a list of rationals (0 on the empty list). -/
def mean (xs : List ℚ) : ℚ := xs.sum / (xs.length : ℚ)

/-- Population variance of a list of rationals. -/
def variance (xs : List ℚ) : ℚ := mean (xs.map (fun x => (x - mean xs) ^ 2))

/-- Slice Y_A = output[0:N]. -/
def sliceA (output : List ℚ) (N : Nat) : List ℚ := output.take N

/-- Slice Y_B = output[N:2N]. -/
def sliceB (output : List ℚ) (N : Nat) : List ℚ := (output.drop N).take N

/-- Slice Y_ABi = output[(2+i)N:(3+i)N]. -/
def sliceAB (output : List ℚ) (N i : Nat) : List ℚ := (output.drop ((2 + i) * N)).take N

/-- Saltelli first-order estimator for one dimension: the raw value
mean(Y_B * (Y_ABi - Y_A)) / V, unclamped; none encodes the NaN reported
when the total variance V is zero (DegenerateVariance). -/
def saltelliFirst (yA yB yABi : List ℚ) (V : ℚ) : Option ℚ :=
  if V = 0 then none
  else some (mean (List.zipWith (fun b z => b * z) yB
    (List.zipWith (fun z a => z - a) yABi yA)) / V)

/-- Jansen total-order estimator for one dimension:
mean((Y_A - Y_ABi)^2) / (2 V); none encodes the NaN reported when the total
variance V is zero (DegenerateVariance). -/
def jansenTotal (yA yABi : List ℚ) (V : ℚ) : Option ℚ :=
  if V = 0 then none
  else some (mean ((List.zipWith (fun a z => a - z) yA yABi).map (fun x => x ^ 2)) / (2 * V))

/-- Bootstrap resampling with replacement: pick the rows of ys named by the
index list js (out-of-range indices default to 0). -/
def resample (ys : List ℚ) (js : List Nat) : List ℚ := js.map (fun j => ys.getD j 0)

/-- Insert a rational into a sorted list, keeping it sorted. -/
def insertSorted (x : ℚ) : List ℚ → List ℚ
  | [] => [x]
  | y :: ys => if x ≤ y then x :: y :: ys else y :: insertSorted x ys

/-- Insertion sort on rationals. -/
def sortQ (xs : List ℚ) : List ℚ := xs.foldr insertSorted []

/-- Empirical percentile (nearest-rank, percentage num/den): the element of
rank ceil(n * num / den) (at least 1) of the sorted list. -/
def percentile (xs : List ℚ) (num den : Nat) : ℚ :=
  (sortQ xs).getD (max 1 ((xs.length * num + den - 1) / den) - 1) 0

/-- Empirical [2.5%, 97.5%] percentile interval of a list of values. -/
def percInterval (vals : List ℚ) : ℚ × ℚ :=
  (percentile vals 1 40, percentile vals 39 40)

/-- One bootstrap round of the first-order index for dimension i: the same
resampled index set js is applied to Y_A, Y_B and Y_ABi, and the total
variance is recomputed on the resampled Y_A and Y_B. -/
def bootFirst (output : List ℚ) (N i : Nat) (js : List Nat) : Option ℚ :=
  saltelliFirst (resample (sliceA output N) js) (resample (sliceB output N) js)
    (resample (sliceAB output N i) js)
    (variance (resample (sliceA output N) js ++ resample (sliceB output N) js))

/-- One bootstrap round of the total-order index for dimension i, with the
same resampled index set js applied to every slice. -/
def bootTotal (output : List ℚ) (N i : Nat) (js : List Nat) : Option ℚ :=
  jansenTotal (resample (sliceA output N) js) (resample (sliceAB output N i) js)
    (variance (resample (sliceA output N) js ++ resample (sliceB output N) js))

/-- Per-dimension sensitivity result: first-order and total-order estimates
(none encodes the NaN of a degenerate variance) and the bootstrap confidence
intervals (none when no bootstrap was requested). -/
structure DimResult where
  first : Option ℚ
  total : Option ℚ
  ciFirst : Option (ℚ × ℚ)
  ciTotal : Option (ℚ × ℚ)
deriving Repr, DecidableEq

/-- The default dimension result used for out-of-range lookups. -/
def dimDefault : DimResult := ⟨none, none, none, none⟩

/-- Modelled from the spec: the Index Estimator. Slices the output vector
into Y_A, Y_B and the Y_ABi blocks, computes the Saltelli first-order and
Jansen total-order index per dimension from the total variance of
Y_A ++ Y_B, and, when rounds > 0, the empirical [2.5%, 97.5%] bootstrap
percentile interval over the per-round recomputed indices. The rng argument
is the explicitly passed random source: rng r is the resampled index set of
round r. The code implementing the estimator is not in the repository
sources. -/
def estimate (output : List ℚ) (N d rounds : Nat) (rng : Nat → List Nat) : List DimResult :=
  let yA := sliceA output N
  let yB := sliceB output N
  let V := variance (yA ++ yB)
  (List.range d).map (fun i =>
    { first := saltelliFirst yA yB (sliceAB output N i) V
      total := jansenTotal yA (sliceAB output N i) V
      ciFirst := if rounds = 0 then none else
        some (percInterval (((List.range rounds).map
          (fun r => bootFirst output N i (rng r))).filterMap id))
      ciTotal := if rounds = 0 then none else
        some (percInterval (((List.range rounds).map
          (fun r => bootTotal output N i (rng r))).filterMap id)) })

/-- Estimation of a vector-valued output, channel by channel: each output
channel is reduced independently by estimate. -/
def estimateMulti (channels : List (List ℚ)) (N d rounds : Nat)
    (rng : Nat → List Nat) : List (List DimResult) :=
  channels.map (fun ch => estimate ch N d rounds rng)

/-- A trivial random source used for instance checks (no resampling). -/
def rng0 : Nat → List Nat := fun _ => [0]

lemma estimate_getD (output : List ℚ) (N d rounds : Nat) (rng : Nat → List Nat)
    {i : Nat} (hi : i < d) :
    (estimate output N d rounds rng).getD i dimDefault =
      { first := saltelliFirst (sliceA output N) (sliceB output N) (sliceAB output N i)
          (variance (sliceA output N ++ sliceB output N))
        total := jansenTotal (sliceA output N) (sliceAB output N i)
          (variance (sliceA output N ++ sliceB output N))
        ciFirst := if rounds = 0 then none else
          some (percInterval (((List.range rounds).map
            (fun r => bootFirst output N i (rng r))).filterMap id))
        ciTotal := if rounds = 0 then none else
          some (percInterval (((List.range rounds).map
            (fun r => bootTotal output N i (rng r))).filterMap id)) } := by
  have hlen : i < (estimate output N d rounds rng).length := by
    simp [estimate, hi]
  rw [List.getD_eq_getElem _ _ hlen]
  simp [estimate]

/-- C2: for every output vector of length N(d+2) whose total variance
V = var(Y_A ++ Y_B) is non-zero, the first-order index reported for
dimension i is the raw Saltelli value mean(Y_B * (Y_ABi - Y_A)) / V,
without clamping. -/
theorem estimate_first_order (output : List ℚ) (N d rounds : Nat) (rng : Nat → List Nat)
    (i : Nat) (_hout : output.length = N * (d + 2)) (hi : i < d)
    (hV : variance (sliceA output N ++ sliceB output N) ≠ 0) :
    ((estimate output N d rounds rng).getD i dimDefault).first =
      some (mean (List.zipWith (fun b z => b * z) (sliceB output N)
          (List.zipWith (fun z a => z - a) (sliceAB output N i) (sliceA output N)))
        / variance (sliceA output N ++ sliceB output N)) := by
  rw [estimate_getD output N d rounds rng hi]
  simp [saltelliFirst, hV]

/-- Instance check for estimate_first_order at N = 1, d = 1 on a concrete
output where the reported raw value is negative. -/
theorem estimate_first_order_witness :
    variance (sliceA [1, 2, -3] 1 ++ sliceB [1, 2, -3] 1) ≠ 0 ∧
    ((estimate [1, 2, -3] 1 1 0 rng0).getD 0 dimDefault).first =
      some (mean (List.zipWith (fun b z => b * z) (sliceB [1, 2, -3] 1)
          (List.zipWith (fun z a => z - a) (sliceAB [1, 2, -3] 1 0) (sliceA [1, 2, -3] 1)))
        / variance (sliceA [1, 2, -3] 1 ++ sliceB [1, 2, -3] 1)) :=
  ⟨by norm_num [variance, mean, sliceA, sliceB],
   estimate_first_order [1, 2, -3] 1 1 0 rng0 0 (by decide) (by decide)
     (by norm_num [variance, mean, sliceA, sliceB])⟩

/-- C3: for every output vector of length N(d+2) whose total variance
V = var(Y_A ++ Y_B) is non-zero, the total-order index reported for
dimension i is the Jansen value mean((Y_A - Y_ABi)^2) / (2 V). -/
theorem estimate_total_order (output : List ℚ) (N d rounds : Nat) (rng : Nat → List Nat)
    (i : Nat) (_hout : output.length = N * (d + 2)) (hi : i < d)
    (hV : variance (sliceA output N ++ sliceB output N) ≠ 0) :
    ((estimate output N d rounds rng).getD i dimDefault).total =
      some (mean ((List.zipWith (fun a z => a - z) (sliceA output N)
          (sliceAB output N i)).map (fun x => x ^ 2))
        / (2 * variance (sliceA output N ++ sliceB output N))) := by
  rw [estimate_getD output N d rounds rng hi]
  simp [jansenTotal, hV]

/-- Instance check for estimate_total_order at N = 1, d = 1 on a concrete
output. -/
theorem estimate_total_order_witness :
    variance (sliceA [1, 2, -3] 1 ++ sliceB [1, 2, -3] 1) ≠ 0 ∧
    ((estimate [1, 2, -3] 1 1 0 rng0).getD 0 dimDefault).total =
      some (mean ((List.zipWith (fun a z => a - z) (sliceA [1, 2, -3] 1)
          (sliceAB [1, 2, -3] 1 0)).map (fun x => x ^ 2))
        / (2 * variance (sliceA [1, 2, -3] 1 ++ sliceB [1, 2, -3] 1))) :=
  ⟨by norm_num [variance, mean, sliceA, sliceB],
   estimate_total_order [1, 2, -3] 1 1 0 rng0 0 (by decide) (by decide)
     (by norm_num [variance, mean, sliceA, sliceB])⟩

lemma mean_replicate {n : Nat} (c : ℚ) (hn : n ≠ 0) :
    mean (List.replicate n c) = c := by
  simp only [mean, List.sum_replicate, nsmul_eq_mul, List.length_replicate]
  rw [mul_comm, mul_div_assoc, div_self (by exact_mod_cast hn), mul_one]

lemma variance_replicate (n : Nat) (c : ℚ) : variance (List.replicate n c) = 0 := by
  cases n with
  | zero => simp [variance, mean]
  | succ m =>
    have h := mean_replicate (n := m + 1) c (Nat.succ_ne_zero m)
    simp only [variance, h, List.map_replicate, sub_self]
    norm_num [mean, List.sum_replicate]

lemma sliceA_replicate (N d : Nat) (c : ℚ) :
    sliceA (List.replicate (N * (d + 2)) c) N = List.replicate N c := by
  have hle : N ≤ N * (d + 2) := by
    calc N = N * 1 := (mul_one N).symm
    _ ≤ N * (d + 2) := Nat.mul_le_mul_left N (by omega)
  simp [sliceA, List.take_replicate, Nat.min_eq_left hle]

lemma sliceB_replicate (N d : Nat) (c : ℚ) :
    sliceB (List.replicate (N * (d + 2)) c) N = List.replicate N c := by
  have hsub : N * (d + 2) - N = N * (d + 1) := by
    have : N * (d + 2) = N * (d + 1) + N := by ring
    omega
  have hle : N ≤ N * (d + 1) := by
    calc N = N * 1 := (mul_one N).symm
    _ ≤ N * (d + 1) := Nat.mul_le_mul_left N (by omega)
  simp [sliceB, List.drop_replicate, List.take_replicate, hsub, Nat.min_eq_left hle]

/-- C4: on a constant output vector (total variance zero) every first-order
and every total-order index is reported as NaN (encoded none) and the
estimator, being a total function, raises nothing; moreover a vector-valued
output is reduced channel by channel, so a degenerate channel never affects
the result of any other channel. -/
theorem estimate_constant_nan (c : ℚ) (N d rounds : Nat) (rng : Nat → List Nat)
    (i : Nat) (hi : i < d) :
    (((estimate (List.replicate (N * (d + 2)) c) N d rounds rng).getD i dimDefault).first = none
      ∧ ((estimate (List.replicate (N * (d + 2)) c) N d rounds rng).getD i dimDefault).total = none)
    ∧ ∀ (channels : List (List ℚ)) (j : Nat),
        (estimateMulti channels N d rounds rng)[j]?
          = (channels[j]?).map (fun ch => estimate ch N d rounds rng) := by
  have hV : variance (sliceA (List.replicate (N * (d + 2)) c) N
      ++ sliceB (List.replicate (N * (d + 2)) c) N) = 0 := by
    rw [sliceA_replicate, sliceB_replicate, ← List.replicate_add]
    exact variance_replicate (N + N) c
  constructor
  · rw [estimate_getD _ N d rounds rng hi]
    constructor
    · simp [saltelliFirst, hV]
    · simp [jansenTotal, hV]
  · intro channels j
    simp [estimateMulti]

/-- Instance check for estimate_constant_nan on the constant output 7 at
N = 2, d = 1. -/
theorem estimate_constant_nan_witness :
    (((estimate (List.replicate (2 * (1 + 2)) 7) 2 1 0 rng0).getD 0 dimDefault).first = none
      ∧ ((estimate (List.replicate (2 * (1 + 2)) 7) 2 1 0 rng0).getD 0 dimDefault).total = none)
    ∧ ∀ (channels : List (List ℚ)) (j : Nat),
        (estimateMulti channels 2 1 0 rng0)[j]?
          = (channels[j]?).map (fun ch => estimate ch 2 1 0 rng0) :=
  estimate_constant_nan 7 2 1 0 rng0 0 (by decide)

/-- C5: whenever rounds > 0, the reported confidence interval for dimension
i is the empirical [2.5%, 97.5%] percentile interval over rounds bootstrap
rounds, where round r recomputes the index after applying the single
resampled index set rng r consistently to Y_A, Y_B and Y_ABi (so the row
pairing is preserved) and recomputing the total variance on the resampled
Y_A ++ Y_B; when rounds = 0 no confidence interval is computed. -/
theorem estimate_bootstrap (output : List ℚ) (N d rounds : Nat) (rng : Nat → List Nat)
    (i : Nat) (hi : i < d) :
    ((estimate output N d rounds rng).getD i dimDefault).ciFirst
      = (if rounds = 0 then none else
          some (percInterval (((List.range rounds).map (fun r =>
            saltelliFirst (resample (sliceA output N) (rng r))
              (resample (sliceB output N) (rng r))
              (resample (sliceAB output N i) (rng r))
              (variance (resample (sliceA output N) (rng r) ++
                resample (sliceB output N) (rng r))))).filterMap id)))
    ∧ ((estimate output N d rounds rng).getD i dimDefault).ciTotal
      = (if rounds = 0 then none else
          some (percInterval (((List.range rounds).map (fun r =>
            jansenTotal (resample (sliceA output N) (rng r))
              (resample (sliceAB output N i) (rng r))
              (variance (resample (sliceA output N) (rng r) ++
                resample (sliceB output N) (rng r))))).filterMap id))) := by
  rw [estimate_getD output N d rounds rng hi]
  constructor
  · simp [bootFirst]
  · simp [bootTotal]

/-- Instance check for estimate_bootstrap at N = 1, d = 1, with one
bootstrap round and with zero rounds. -/
theorem estimate_bootstrap_witness :
    (((estimate [1, 2, -3] 1 1 1 rng0).getD 0 dimDefault).ciFirst
      = (if (1 : Nat) = 0 then none else
          some (percInterval (((List.range 1).map (fun r =>
            saltelliFirst (resample (sliceA [1, 2, -3] 1) (rng0 r))
              (resample (sliceB [1, 2, -3] 1) (rng0 r))
              (resample (sliceAB [1, 2, -3] 1 0) (rng0 r))
              (variance (resample (sliceA [1, 2, -3] 1) (rng0 r) ++
                resample (sliceB [1, 2, -3] 1) (rng0 r))))).filterMap id))))
    ∧ ((estimate [1, 2, -3] 1 1 1 rng0).getD 0 dimDefault).ciTotal
      = (if (1 : Nat) = 0 then none else
          some (percInterval (((List.range 1).map (fun r =>
            jansenTotal (resample (sliceA [1, 2, -3] 1) (rng0 r))
              (resample (sliceAB [1, 2, -3] 1 0) (rng0 r))
              (variance (resample (sliceA [1, 2, -3] 1) (rng0 r) ++
                resample (sliceB [1, 2, -3] 1) (rng0 r))))).filterMap id))) :=
  estimate_bootstrap [1, 2, -3] 1 1 1 rng0 0 (by decide)

/-- C6: generate fails with InvalidDimension exactly when N < 1 or d < 1,
fails with SamplerContractViolation exactly when N and d are valid but the
sampler returned a wrongly shaped matrix, and a failure aborts the whole
construction: no result matrix is produced alongside an error. -/
theorem generate_failure (s : Sampler) (N d : Nat) :
    ((∃ msg, generate s N d = .error (.InvalidDimension msg)) ↔ N < 1 ∨ d < 1)
    ∧ ((∃ msg, generate s N d = .error (.SamplerContractViolation msg)) ↔
        (1 ≤ N ∧ 1 ≤ d ∧
          ¬(wellShapedB (s 0 N d) N d = true ∧ wellShapedB (s 1 N d) N d = true)))
    ∧ ∀ e, generate s N d = .error e → ¬∃ m, generate s N d = .ok m := by
  refine ⟨?_, ?_, ?_⟩
  · constructor
    · intro ⟨msg, hmsg⟩
      by_contra hNd
      rw [generate, if_neg hNd] at hmsg
      by_cases hsh : (wellShapedB (s 0 N d) N d && wellShapedB (s 1 N d) N d) = true
      · rw [if_pos hsh] at hmsg
        cases hmsg
      · rw [if_neg hsh] at hmsg
        cases hmsg
    · intro hNd
      exact ⟨"base size N and input dimension d must both be at least 1",
        by rw [generate, if_pos hNd]⟩
  · constructor
    · intro ⟨msg, hmsg⟩
      by_cases hNd : N < 1 ∨ d < 1
      · rw [generate, if_pos hNd] at hmsg
        cases hmsg
      · refine ⟨by omega, by omega, ?_⟩
        intro ⟨hA, hB⟩
        rw [generate, if_neg hNd, if_pos (by rw [hA, hB]; rfl)] at hmsg
        cases hmsg
    · intro ⟨hN, hd, hsh⟩
      have hNd : ¬(N < 1 ∨ d < 1) := by omega
      have hshB : (wellShapedB (s 0 N d) N d && wellShapedB (s 1 N d) N d) ≠ true := by
        intro hand
        exact hsh (by simpa [Bool.and_eq_true] using hand)
      exact ⟨"sampler returned a matrix that is not N by d",
        by rw [generate, if_neg hNd, if_neg hshB]⟩
  · intro e he ⟨m, hm⟩
    rw [he] at hm
    cases hm

/-- Instance check for generate_failure: with the concrete sampler,
N = 0 yields an InvalidDimension error. -/
theorem generate_failure_witness :
    ∃ msg, generate sampler0 0 3 = .error (.InvalidDimension msg) :=
  (generate_failure sampler0 0 3).1.mpr (by decide)

/-- Modelled from the spec: the surrogate collaborator. Fitting applies a
training algorithm to the training inputs and outputs and returns the
trained model, a pointwise predictor. The code implementing surrogate
fitting is not in the repository sources. -/
def fit (algo : Mat → List ℚ → (Row → ℚ)) (trainingInputs : Mat)
    (trainingOutputs : List ℚ) : Row → ℚ :=
  algo trainingInputs trainingOutputs

/-- Modelled from the spec: the Model collaborator contract. Evaluating a
model on an input sample applies it to every row, producing one response
per row in row order. -/
def evaluate (m : Row → ℚ) (sample : Mat) : List ℚ := sample.map m

/-- C7: a trained model produced by fit satisfies the Model collaborator
contract: evaluating it on an input sample yields one response per input
row, and the i-th response is the trained model applied to the i-th row
(row order preserved). -/
theorem fit_model_contract (algo : Mat → List ℚ → (Row → ℚ)) (tx : Mat)
    (ty : List ℚ) (sample : Mat) :
    (evaluate (fit algo tx ty) sample).length = sample.length
    ∧ ∀ i, i < sample.length →
        (evaluate (fit algo tx ty) sample).getD i 0 = fit algo tx ty (sample.getD i []) := by
  constructor
  · simp [evaluate]
  · intro i hi
    rw [List.getD_eq_getElem _ _ (by simpa [evaluate] using hi),
      List.getD_eq_getElem _ _ hi]
    simp [evaluate]

/-- A concrete training algorithm used for instance checks: the trained
model sums the coordinates of a row. -/
def algoSum : Mat → List ℚ → (Row → ℚ) := fun _ _ r => r.sum

/-- Instance check for fit_model_contract on a two-row sample. -/
theorem fit_model_contract_witness :
    (evaluate (fit algoSum [[1]] [2]) [[1, 2], [3]]).length = 2
    ∧ (evaluate (fit algoSum [[1]] [2]) [[1, 2], [3]]).getD 0 0
        = fit algoSum [[1]] [2] ([[1, 2], [3]].getD 0 []) :=
  ⟨(fit_model_contract algoSum [[1]] [2] [[1, 2], [3]]).1,
   (fit_model_contract algoSum [[1]] [2] [[1, 2], [3]]).2 0 (by decide)⟩

/-- C8: estimate is a pure function of the output vector, N, d, the number
of bootstrap rounds and the explicitly passed random source: two calls with
identical arguments return identical SensitivityResults, and the type of
estimate threads no other state that a call could change. -/
theorem estimate_deterministic (out1 out2 : List ℚ) (N1 N2 d1 d2 b1 b2 : Nat)
    (rng1 rng2 : Nat → List Nat) (ho : out1 = out2) (hN : N1 = N2) (hd : d1 = d2)
    (hb : b1 = b2) (hr : rng1 = rng2) :
    estimate out1 N1 d1 b1 rng1 = estimate out2 N2 d2 b2 rng2 := by
  subst ho hN hd hb hr
  rfl

/-- Instance check for estimate_deterministic at concrete arguments. -/
theorem estimate_deterministic_witness :
    estimate [1, 2, -3] 1 1 2 rng0 = estimate [1, 2, -3] 1 1 2 rng0 :=
  estimate_deterministic [1, 2, -3] [1, 2, -3] 1 1 1 1 2 2 rng0 rng0
    rfl rfl rfl rfl rfl

/-- The quantity the notebook prints as Relative error, embedded from the
notebook source: abs(estimated - analytical) * 100, elementwise over the
index vectors. -/
def printedRelativeError (est tru : List ℚ) : List ℚ :=
  List.zipWith (fun e t => |e - t| * 100) est tru

lemma getD_zipWith (f : ℚ → ℚ → ℚ) :
    ∀ (a b : List ℚ) (i : Nat), i < a.length → i < b.length →
      (List.zipWith f a b).getD i 0 = f (a.getD i 0) (b.getD i 0) := by
  intro a
  induction a with
  | nil => intro b i h1 _; simp at h1
  | cons x xs ih =>
    intro b i h1 h2
    cases b with
    | nil => simp at h2
    | cons y ys =>
      cases i with
      | zero => simp [List.zipWith]
      | succ n =>
        simp only [List.zipWith, List.getD_cons_succ]
        exact ih ys n (by simpa using h1) (by simpa using h2)

/-- C10: the printed Relative error is the absolute difference between the
estimated and the analytical index scaled to percent, abs(est - true) * 100,
and not the difference divided by the true value. -/
theorem printedRelativeError_absolute (est tru : List ℚ) (i : Nat)
    (h1 : i < est.length) (h2 : i < tru.length) :
    (printedRelativeError est tru).getD i 0 = |est.getD i 0 - tru.getD i 0| * 100
    ∧ printedRelativeError [1/2] [1/4] ≠ [((1/2 : ℚ) - 1/4) / (1/4) * 100] := by
  constructor
  · exact getD_zipWith _ est tru i h1 h2
  · intro h
    simp only [printedRelativeError, List.zipWith, List.cons.injEq] at h
    have habs : |(1/2 : ℚ) - 1/4| = 1/4 := by
      rw [show (1/2 : ℚ) - 1/4 = 1/4 by norm_num]
      exact abs_of_pos (by norm_num)
    rw [habs] at h
    have := h.1
    norm_num at this

/-- Instance check for printedRelativeError_absolute at the first entry of
concrete estimate and reference vectors. -/
theorem printedRelativeError_absolute_witness :
    (printedRelativeError [1/2] [1/4]).getD 0 0
        = |([(1 : ℚ)/2]).getD 0 0 - ([(1 : ℚ)/4]).getD 0 0| * 100
    ∧ printedRelativeError [1/2] [1/4] ≠ [((1/2 : ℚ) - 1/4) / (1/4) * 100] :=
  printedRelativeError_absolute [1/2] [1/4] 0 (by decide) (by decide)

end Sobol
